import Mathlib

/-!
Shallow embedding of the Lyman-alpha-bubbles likelihood engine
(`src/main.py` and `src/venv/igm_prop.py`).

Conventions of the embedding:
 -  Python floats are modelled by exact rationals `ℚ`.  External numerical
    collaborators (numpy `sqrt`, astropy `z_at_value` cosmology inversion,
    the damping-wing special function `I` of `venv/helpers.py`, float
    powers `x ** 1.5`, numpy `log`/`log10`, the float constants `np.pi`
    and `freq_Lya`, and the scipy `gaussian_kde` object) are fields of
    explicit context structures (`IgmCtx`, `KdeCtx`); theorems quantify
    over every context, and witnesses instantiate computable ones.
 -  Python exceptions are modelled by `Except PyErr`.
 -  numpy random draws are modelled by explicit input streams.
-/

namespace LyaBubbles

set_option allowUnsafeReducibility true

attribute [local semireducible] Rat.mul Rat.div Rat.inv Rat.add Rat.sub
  Rat.neg Rat.blt

/-- Python exception classes that appear in the sources: `LinAlgError`,
`ValueError`, `TypeError` (the three caught at `main.py:479`),
`IndexError`, and a stand-in for any other class. -/
inductive PyErr where
  | linAlgError
  | valueError
  | typeError
  | indexError
  | otherError
deriving DecidableEq, Repr

deriving instance DecidableEq for Except

/-- The classes caught by the `except (LinAlgError, ValueError, TypeError)`
handler at `main.py:479`. -/
def PyErr.caught : PyErr → Bool
  | .linAlgError => true
  | .valueError => true
  | .typeError => true
  | _ => false

/-- An optical-depth sample after the final clamping `taus[taus<0.0]=np.inf`
of `igm_prop.py:667`: either a finite rational or `+∞`. -/
inductive TauVal where
  | fin : ℚ → TauVal
  | inf
deriving DecidableEq, Repr

/-- The clamp of `igm_prop.py:667`: a negative optical depth becomes `np.inf`,
any other value is returned as is. -/
def clampNeg (q : ℚ) : TauVal :=
  if q < 0 then TauVal.inf else TauVal.fin q

/-- Largest `k ≤ bound` with `k * k ≤ n` (a structurally recursive integer
square root used only to instantiate contexts at concrete inputs). -/
def natSqrtBelow : ℕ → ℕ → ℕ
  | 0, _ => 0
  | k + 1, n => if (k + 1) * (k + 1) ≤ n then k + 1 else natSqrtBelow k n

/-- A computable stand-in for `np.sqrt` used when instantiating contexts in
witnesses: exact on rationals whose numerator and denominator are perfect
squares (the only inputs our concrete examples use). -/
def ratSqrt (q : ℚ) : ℚ :=
  (natSqrtBelow q.num.toNat q.num.toNat : ℚ) / (natSqrtBelow q.den q.den : ℚ)

/-- `np.linspace a b n`. -/
def linspace (a b : ℚ) (n : ℕ) : List ℚ :=
  (List.range n).map (fun i => a + (b - a) * i / (n - 1))

/-- `wave_em = np.linspace(1213, 1219., 100)` of `igm_prop.py:14` (the
wavelength grid used by the optical-depth calculator; angstrom values,
units stripped). -/
def wave_em : List ℚ := linspace 1213 1219 100

/-- External numerical collaborators used by `venv/igm_prop.py`. -/
structure IgmCtx where
  /-- `np.sqrt`. -/
  sqrt : ℚ → ℚ
  /-- `z_at_value(Cosmo.comoving_distance, Cosmo.comoving_distance(z0) - d*u.Mpc)`
  as a function of the base redshift `z0` and the comoving shift `d` in Mpc. -/
  zAtShift : ℚ → ℚ → ℚ
  /-- the special function `I` imported from `venv/helpers.py`. -/
  Ifun : ℚ → ℚ
  /-- the float power `x ** 1.5`. -/
  pow15 : ℚ → ℚ
  /-- the float constant `np.pi`. -/
  pi : ℚ
  /-- the float constant `freq_Lya.value` (`igm_prop.py:16`). -/
  freqLya : ℚ

/-- `tau_wv` of `igm_prop.py:671-703`: the closed-form mean-field
damping-wing optical depth over the wavelength grid `wv`.  Faithful to the
source: `x_d = nf` (line 696; the commented-out `nsum` alternative is dead
code), `z_b1` is the redshift at comoving distance `dist` Mpc short of `zs`,
and `tau = tau_gp * r_alpha / pi * x_d * ((1+z_b1)/(1+z))**1.5 *
(I((1+z_b1)/(1+z)) - I((1+z_end)/(1+z)))` pointwise in wavelength. -/
def tau_wv (ctx : IgmCtx) (wv : List ℚ) (dist zs z_end nf : ℚ) : List ℚ :=
  let z_b1 := ctx.zAtShift zs dist
  let tau_gp := 716000 * ctx.pow15 ((1 + zs) / 10)
  let r_alpha := 625000000 / (4 * ctx.pi * ctx.freqLya)
  let x_d := nf
  wv.map (fun w =>
    let z := w / 1216 * (1 + zs) - 1
    tau_gp * r_alpha / ctx.pi * x_d * ctx.pow15 ((1 + z_b1) / (1 + z)) *
      (ctx.Ifun ((1 + z_b1) / (1 + z)) - ctx.Ifun ((1 + z_end) / (1 + z))))

/-- One sightline-bubble intersection interval of `calculate_taus_i`
(`igm_prop.py:550-572`): line-of-sight entry/exit coordinates `zUp`/`zLo`
and the corresponding redshifts `redUp`/`redLo`. -/
structure Interval where
  zUp : ℚ
  zLo : ℚ
  redUp : ℚ
  redLo : ℚ
deriving DecidableEq, Repr

instance : Inhabited Interval := ⟨⟨0, 0, 0, 0⟩⟩

/-- A bubble of the outside ensemble: `(x, y, z, r)`. -/
abbrev Bub : Type := ℚ × ℚ × ℚ × ℚ

/-- The intersection scan of `calculate_taus_i` (`igm_prop.py:546-572`):
for every bubble whose projected distance to the sightline `(xr, yr)` is
less than its radius, record the entry/exit line-of-sight coordinates
`zb ∓ sqrt(rb² - d²)` and their redshifts
`z_at_value(comoving, comoving(7.5) - z_edge - 10 Mpc)`. -/
def intersections (ctx : IgmCtx) (bubbles : List Bub) (xr yr : ℚ) :
    List Interval :=
  bubbles.filterMap (fun b =>
    let xb := b.1
    let yb := b.2.1
    let zb := b.2.2.1
    let rb := b.2.2.2
    if (xr - xb) ^ 2 + (yr - yb) ^ 2 < rb ^ 2 then
      let s := ctx.sqrt (rb ^ 2 - ((xr - xb) ^ 2 + (yr - yb) ^ 2))
      some { zUp := zb - s
             zLo := zb + s
             redUp := ctx.zAtShift (15 / 2) ((zb - s) + 10)
             redLo := ctx.zAtShift (15 / 2) ((zb + s) + 10) }
    else none)

/-- Stable insertion into a sorted list; together with `sortBy` this models
Python's stable `list.sort` / numpy argsort-based reordering. -/
def insertBy {α : Type} (le : α → α → Bool) (a : α) : List α → List α
  | [] => [a]
  | b :: t => if le a b then a :: b :: t else b :: insertBy le a t

/-- Stable insertion sort (ascending with respect to `le`). -/
def sortBy {α : Type} (le : α → α → Bool) : List α → List α
  | [] => []
  | a :: t => insertBy le a (sortBy le t)

/-- The reordering `z_edge_up[np.flip(indices_up)]` of `igm_prop.py:585-590`:
sort the intervals by ascending entry coordinate `zUp`, then reverse
(descending `zUp`). -/
def sortIntervals (l : List Interval) : List Interval :=
  (sortBy (fun a b => decide (a.zUp ≤ b.zUp)) l).reverse

/-- `np.delete` with a list of indices, counting positions from `k`. -/
def deleteIdxs {α : Type} : List α → List ℕ → ℕ → List α
  | [], _, _ => []
  | x :: t, idxs, k =>
    if idxs.contains k then deleteIdxs t idxs (k + 1)
    else x :: deleteIdxs t idxs (k + 1)

/-- The overlap-merging step of `calculate_taus_i` (`igm_prop.py:592-603`):
mark every position `i < len - 1` with `zLo[i] < zUp[i+1]`, then delete the
marked positions from the `zLo`/`redLo` arrays and the successor positions
from the `zUp`/`redUp` arrays, and re-pair the four arrays. -/
def mergeIntervals (sorted : List Interval) : List Interval :=
  let marks := (List.range (sorted.length - 1)).filter
    (fun i => decide ((sorted.getD i default).zLo < (sorted.getD (i + 1) default).zUp))
  let zUps := deleteIdxs (sorted.map (·.zUp)) (marks.map (· + 1)) 0
  let zLos := deleteIdxs (sorted.map (·.zLo)) marks 0
  let redUps := deleteIdxs (sorted.map (·.redUp)) (marks.map (· + 1)) 0
  let redLos := deleteIdxs (sorted.map (·.redLo)) marks 0
  ((zUps.zip zLos).zip (redUps.zip redLos)).map
    (fun p => { zUp := p.1.1, zLo := p.1.2, redUp := p.2.1, redLo := p.2.2 })

/-- The prefactor `tau_pref = tau_gp * r_alpha / np.pi` of
`igm_prop.py:538-540`. -/
def tau_pref (ctx : IgmCtx) (z_source : ℚ) : ℚ :=
  716000 * ctx.pow15 ((1 + z_source) / 10) *
    (625000000 / (4 * ctx.pi * ctx.freqLya)) / ctx.pi

/-- One damping-wing segment of `calculate_taus_i`, the recurring expression
`tau_pref * ((1+z_bi)/(1+z))**1.5 * (I((1+z_bi)/(1+z)) - I((1+z_ei)/(1+z)))`
evaluated over the whole wavelength grid. -/
def segment (ctx : IgmCtx) (z_source z_bi z_ei : ℚ) : List ℚ :=
  wave_em.map (fun w =>
    let z := w / 1216 * (1 + z_source) - 1
    tau_pref ctx z_source * ctx.pow15 ((1 + z_bi) / (1 + z)) *
      (ctx.Ifun ((1 + z_bi) / (1 + z)) - ctx.Ifun ((1 + z_ei) / (1 + z))))

/-- The variant segment used in the `z_up_i < 0 < z_lo_i` branch of
`igm_prop.py:612-619`, whose power factor is inverted:
`tau_pref * ((1+z)/(1+z_bi))**1.5 * (I((1+z_bi)/(1+z)) - I((1+z_ei)/(1+z)))`. -/
def segment_inv (ctx : IgmCtx) (z_source z_bi z_ei : ℚ) : List ℚ :=
  wave_em.map (fun w =>
    let z := w / 1216 * (1 + z_source) - 1
    tau_pref ctx z_source * ctx.pow15 ((1 + z) / (1 + z_bi)) *
      (ctx.Ifun ((1 + z_bi) / (1 + z)) - ctx.Ifun ((1 + z_ei) / (1 + z))))

/-- Pointwise addition of two optical-depth rows (`tau_i += ...`). -/
def addRows (a b : List ℚ) : List ℚ := a.zipWith (· + ·) b

/-- The tail of the interval walk of `calculate_taus_i`
(`igm_prop.py:629-663`) for indices `1 ≤ index ≤ len-1` (`len ≥ 2`), with
`prev` the interval at `index - 1`: a middle interval adds the neutral
segment from `prev.redLo` down to its own `redUp`; the last interval adds
that segment and the final neutral segment from its `redLo` down to 5.3. -/
def restIntervals (ctx : IgmCtx) (z_source : ℚ) (acc : List ℚ)
    (prev : Interval) : List Interval → List ℚ
  | [] => acc
  | [last] =>
      addRows
        (addRows acc (segment ctx z_source prev.redLo last.redUp))
        (segment ctx z_source last.redLo (53 / 10))
  | cur :: nxt :: rest =>
      restIntervals ctx z_source
        (addRows acc (segment ctx z_source prev.redLo cur.redUp)) cur
        (nxt :: rest)

/-- The interval walk of `calculate_taus_i` (`igm_prop.py:604-664`) over the
sorted-and-merged interval list.  At index 0, an interval wholly behind the
galaxy (`z_up_i < 0 and z_lo_i < 0`) raises `ValueError`
(`igm_prop.py:608-611`); an interval straddling the galaxy
(`z_up_i < 0 < z_lo_i`) starts with the inverted-power segment from
`z_end_bubble` to its `redLo`; otherwise the walk starts with the segment
from `z_end_bubble` to its `redUp`.  A single interval then adds the final
neutral segment from its `redLo` down to 5.3. -/
def tau_intervals (ctx : IgmCtx) (z_source z_end_bubble : ℚ) :
    List Interval → Except PyErr (List ℚ)
  | [] => Except.ok (wave_em.map (fun _ => 0))
  | h :: t =>
    if h.zUp < 0 ∧ h.zLo < 0 then Except.error PyErr.valueError
    else
      let r0 :=
        if h.zUp < 0 ∧ 0 < h.zLo then
          segment_inv ctx z_source z_end_bubble h.redLo
        else
          segment ctx z_source z_end_bubble h.redUp
      match t with
      | [] => Except.ok (addRows r0 (segment ctx z_source h.redLo (53 / 10)))
      | _ :: _ => Except.ok (restIntervals ctx z_source r0 h t)

/-- One sightline of `calculate_taus_i` (`igm_prop.py:541-664`): collect
intersections; with none, fall back to `tau_wv(wv, dist=dist, zs=z_source,
z_end=5.3, nf=0.8)` (`igm_prop.py:578-584`, the neutral fraction is the
literal 0.8); otherwise sort descending by entry coordinate, merge
overlaps, and walk the intervals. -/
def tau_sightline (ctx : IgmCtx) (bubbles : List Bub)
    (z_source z_end_bubble dist : ℚ) (xr yr : ℚ) : Except PyErr (List ℚ) :=
  let ints := intersections ctx bubbles xr yr
  if ints.isEmpty then
    Except.ok (tau_wv ctx wave_em dist z_source (53 / 10) (8 / 10))
  else
    tau_intervals ctx z_source z_end_bubble (mergeIntervals (sortIntervals ints))

/-- The sightline loop of `calculate_taus_i`: rows are accumulated in order
and a raised exception aborts the whole call. -/
def collectRows (ctx : IgmCtx) (bubbles : List Bub)
    (z_source z_end_bubble dist : ℚ) :
    List (ℚ × ℚ) → Except PyErr (List (List ℚ))
  | [] => Except.ok []
  | (xr, yr) :: rest =>
    match tau_sightline ctx bubbles z_source z_end_bubble dist xr yr with
    | Except.error e => Except.error e
    | Except.ok row =>
      match collectRows ctx bubbles z_source z_end_bubble dist rest with
      | Except.error e => Except.error e
      | Except.ok rows => Except.ok (row :: rows)

/-- The sightline selection of `calculate_taus_i` (`igm_prop.py:524-529`):
when `x_pos` and `y_pos` are both given they form the single sightline,
otherwise `n_iter` random offsets are taken from the streams `randX`,
`randY`. -/
def sightlinesOf (n_iter : ℕ) (x_pos y_pos : Option ℚ)
    (randX randY : List ℚ) : List (ℚ × ℚ) :=
  match x_pos, y_pos with
  | some a, some b => [(a, b)]
  | _, _ => (randX.take n_iter).zip (randY.take n_iter)

/-- `calculate_taus_i` of `igm_prop.py:506-668`.  The unused `z_start`
computation of `igm_prop.py:533-536` has no effect on the result and is
omitted.  Finally negative values are clamped to `np.inf`
(`igm_prop.py:666-667`). -/
def calculate_taus_i (ctx : IgmCtx) (bubbles : List Bub)
    (z_source z_end_bubble : ℚ) (n_iter : ℕ) (x_pos y_pos : Option ℚ)
    (dist : ℚ) (randX randY : List ℚ) : Except PyErr (List (List TauVal)) :=
  match collectRows ctx bubbles z_source z_end_bubble dist
      (sightlinesOf n_iter x_pos y_pos randX randY) with
  | Except.error e => Except.error e
  | Except.ok rows => Except.ok (rows.map (fun row => row.map clampNeg))

/-- One candidate placement of the `get_bubbles` loop
(`igm_prop.py:180-185`): the radius drawn by inverse-CDF sampling and the
three uniform position draws.  The empirical size distribution
(`get_tl_data`, `np.interp` over the cdf) is an external collaborator, so
the drawn radius is taken as an input. -/
structure Draw where
  r : ℚ
  x : ℚ
  y : ℚ
  z : ℚ
deriving DecidableEq, Repr

/-- Mutable state of the `get_bubbles` while-loop: the accepted bubbles,
the accumulated ionized volume `v_tot`, and the consecutive-rejection
counter `try_i`. -/
structure BState where
  bubs : List Bub
  vTot : ℚ
  tryI : ℕ
deriving DecidableEq, Repr

/-- Numerical collaborators of `get_bubbles`: `np.pi` and `np.sqrt`. -/
structure BubCtx where
  pi : ℚ
  sqrt : ℚ → ℚ

/-- `v = 4. * np.pi / 3. * bubble_now ** 3` (`igm_prop.py:190`). -/
def sphereVol (ctx : BubCtx) (r : ℚ) : ℚ := 4 * ctx.pi / 3 * r ^ 3

/-- A spherical-cap deduction `np.pi * 2. / 3. * h ** 2 * (3 * bubble_now - h)`
(`igm_prop.py:195` and the analogous lines). -/
def capDed (ctx : BubCtx) (r h : ℚ) : ℚ := ctx.pi * 2 / 3 * h ^ 2 * (3 * r - h)

/-- The candidate volume after the box-edge deductions of
`igm_prop.py:190-218` (x edges at `±Rmax`, y edges at `±Rmax`, z edges at
`0` and `z_v`). -/
def edgeVol (ctx : BubCtx) (rmax z_v : ℚ) (d : Draw) : ℚ :=
  let v0 := sphereVol ctx d.r
  let v1 := v0 -
    (if d.x < -rmax + d.r then capDed ctx d.r (-rmax - d.x + d.r)
     else if d.x > rmax - d.r then capDed ctx d.r (d.r - (rmax - d.x))
     else 0)
  let v2 := v1 -
    (if d.y < -rmax + d.r then capDed ctx d.r (-rmax - d.y + d.r)
     else if d.y > rmax - d.r then capDed ctx d.r (d.r - (rmax - d.y))
     else 0)
  v2 -
    (if d.z < 0 + d.r then capDed ctx d.r (d.r - d.z)
     else if d.z > z_v - d.r then capDed ctx d.r (d.r - (z_v - d.z))
     else 0)

/-- The overlap scan of `igm_prop.py:219-238`: over every accepted bubble
whose center distance to the candidate is below the sum of radii, flag a
fully nested pair (`dist + small < big`) and accumulate the lens-volume
deduction. -/
def overlapScan (ctx : BubCtx) (bubs : List Bub) (d : Draw) : Bool × ℚ :=
  bubs.foldl
    (fun acc b =>
      let bx := b.1
      let yb := b.2.1
      let bz := b.2.2.1
      let br := b.2.2.2
      let sq := (bx - d.x) ^ 2 + (yb - d.y) ^ 2 + (bz - d.z) ^ 2
      if sq < (br + d.r) ^ 2 then
        let dist := ctx.sqrt sq
        let big := if br > d.r then br else d.r
        let small := if br > d.r then d.r else br
        (acc.1 || decide (dist + small < big),
          acc.2 + ctx.pi * (big + small - dist) ^ 2 *
            (dist ^ 2 + 2 * dist * small - 3 * small ^ 2 + 2 * dist * big +
              6 * big * small - 3 * big ^ 2) / 12 / dist)
      else acc)
    (false, 0)

/-- The candidate's residual volume and nesting flag: edge-corrected volume
minus the overlap deduction (`igm_prop.py:239`). -/
def candVol (ctx : BubCtx) (rmax z_v : ℚ) (bubs : List Bub) (d : Draw) :
    Bool × ℚ :=
  let p := overlapScan ctx bubs d
  (p.1, edgeVol ctx rmax z_v d - p.2)

/-- A placement is rejected when the nesting flag is set or the residual
volume is negative (`igm_prop.py:240`).  Rejection depends only on the
accepted bubbles, not on `v_tot` or `try_i`. -/
def rejectsDraw (ctx : BubCtx) (rmax z_v : ℚ) (bubs : List Bub) (d : Draw) :
    Bool :=
  (candVol ctx rmax z_v bubs d).1 || decide ((candVol ctx rmax z_v bubs d).2 < 0)

/-- Result of one iteration of the `get_bubbles` while-loop body: either
the loop breaks returning a bubble list, or continues with a new state. -/
inductive StepRes where
  | done : List Bub → StepRes
  | cont : BState → StepRes
deriving DecidableEq, Repr

/-- One iteration of the `get_bubbles` while-loop body
(`igm_prop.py:180-262`): the `mock` skip (`igm_prop.py:186-188`), rejection
with `try_i` increment and break at 5 (`igm_prop.py:240-246`), the
volume-overshoot branch (`igm_prop.py:248-253`, `that_it` accepts the
candidate and breaks), and acceptance with `try_i = 0`
(`igm_prop.py:255-260`). -/
def get_bubbles_step (ctx : BubCtx) (xh z_v rmax tol : ℚ) (mock : Bool)
    (s : BState) (d : Draw) : StepRes :=
  if mock && decide (d.r ^ 2 > d.x ^ 2 + d.y ^ 2) &&
      decide (d.z - (d.r ^ 2 - d.x ^ 2 - d.y ^ 2) < 5) then
    StepRes.cont s
  else
    let p := candVol ctx rmax z_v s.bubs d
    if p.1 || decide (p.2 < 0) then
      if s.tryI + 1 ≥ 5 then StepRes.done s.bubs
      else StepRes.cont { s with tryI := s.tryI + 1 }
    else
      let target := (1 - xh) * z_v * rmax * rmax
      if (s.vTot + p.2) / target > 1 then
        if |s.vTot + p.2 - target| / (s.vTot + p.2) < tol then
          StepRes.done (s.bubs ++ [(d.x, d.y, d.z, d.r)])
        else StepRes.cont s
      else
        StepRes.cont
          { bubs := s.bubs ++ [(d.x, d.y, d.z, d.r)]
            vTot := s.vTot + p.2
            tryI := 0 }

/-- The `get_bubbles` while-loop (`igm_prop.py:177-262`) over a stream of
candidate draws, with its entry condition
`abs(v_tot - target)/target > tolerance`.  Running out of draws models an
unending sequence of non-terminating iterations being truncated; the
accepted ensemble is returned in every exit path. -/
def get_bubbles_loop (ctx : BubCtx) (xh z_v rmax tol : ℚ) (mock : Bool) :
    List Draw → BState → List Bub
  | [], s => s.bubs
  | d :: ds, s =>
    let target := (1 - xh) * z_v * rmax * rmax
    if |s.vTot - target| / target > tol then
      match get_bubbles_step ctx xh z_v rmax tol mock s d with
      | StepRes.done bs => bs
      | StepRes.cont s' => get_bubbles_loop ctx xh z_v rmax tol mock ds s'
    else s.bubs

/-- `get_bubbles` of `igm_prop.py:111-263`, starting from the empty
ensemble with `tolerance = 0.01` (`igm_prop.py:175`).  `rmax` stands for
`max(r_hist)` of the external size-distribution data. -/
def get_bubbles (ctx : BubCtx) (xh z_v rmax : ℚ) (mock : Bool)
    (draws : List Draw) : List Bub :=
  get_bubbles_loop ctx xh z_v rmax (1 / 100) mock draws ⟨[], 0, 0⟩

/-- The fiducial neutral fraction `x_H = 0.65` that `_get_likelihood` uses
to generate the outside-bubble ensembles when `xh_unc` is off
(`main.py:212`). -/
def xH_fiducial : ℚ := 13 / 20

/-- External collaborators of the KDE likelihood section of
`_get_likelihood` (`main.py:374-501`): the scipy `gaussian_kde` fit (which
raises `LinAlgError` on a degenerate, singular-covariance dataset), its
`evaluate` and `integrate_box` methods, and numpy `log`/`log10`.  A fitted
KDE object is identified with its dataset and bandwidth. -/
structure KdeCtx where
  fit : List ℚ → ℚ → Except PyErr Unit
  evaluate : List ℚ → ℚ → ℚ → ℚ
  integrate_box : List ℚ → ℚ → ℚ → ℚ → ℚ
  log : ℚ → ℚ
  log10 : ℚ → ℚ

/-- The transformed dataset `np.log10(1e19 * (3e-19 + flux_line))` on which
the flux KDE is fitted (`main.py:391-394`). -/
def kde_flux_data (ctx : KdeCtx) (flux_line : List ℚ) : List ℚ :=
  flux_line.map (fun f => ctx.log10 (10 ^ 19 * (3 / 10 ^ 19 + f)))

/-- The per-galaxy contribution added to the `likelihood_tau` accumulator
(`main.py:403-420`).  With `like_on_tau_full`: integrate the tau KDE over
`[0, 0.01]` below 0.01, else evaluate at the observed transmission.
Without it: a galaxy whose integrated flux is below `flux_limit`
contributes nothing (`pass`, `main.py:414-416`); otherwise the tau KDE is
evaluated at the observed transmission. -/
def tau_contrib (ctx : KdeCtx) (tau_line : List ℚ) (td fi limit : ℚ)
    (like_on_tau_full : Bool) : ℚ :=
  if like_on_tau_full then
    if td < 1 / 100 then ctx.log (ctx.integrate_box tau_line (3 / 20) 0 (1 / 100))
    else ctx.log (ctx.evaluate tau_line (3 / 20) td)
  else if fi < limit then 0
  else ctx.log (ctx.evaluate tau_line (3 / 20) td)

/-- The per-galaxy contribution added to the `likelihood_int` accumulator
(`main.py:454-469`).  Below the detection limit:
`np.log(flux_kde.integrate_box(0.05, np.log10(1e19 * (3e-19 + flux_limit))))`
(`main.py:459-462`); otherwise the flux KDE is evaluated at the transformed
observed flux (`main.py:467-469`). -/
def int_contrib (ctx : KdeCtx) (flux_line : List ℚ) (fi limit : ℚ) : ℚ :=
  if fi < limit then
    ctx.log (ctx.integrate_box (kde_flux_data ctx flux_line) (3 / 20) (1 / 20)
      (ctx.log10 (10 ^ 19 * (3 / 10 ^ 19 + limit))))
  else
    ctx.log (ctx.evaluate (kde_flux_data ctx flux_line) (3 / 20)
      (ctx.log10 (10 ^ 19 * (3 / 10 ^ 19 + fi))))

/-- Modelled from the spec: the detection-floor contribution that claim C2
asserts, `log(KDE.integrate_over[0, floor])` — the mass of the fitted flux
KDE between the transform of flux 0 and the transform of the detection
limit.  This is the claim's formula, to be compared with `int_contrib`. -/
def int_contrib_claimed (ctx : KdeCtx) (flux_line : List ℚ) (limit : ℚ) : ℚ :=
  ctx.log (ctx.integrate_box (kde_flux_data ctx flux_line) (3 / 20)
    (ctx.log10 (10 ^ 19 * (3 / 10 ^ 19 + 0)))
    (ctx.log10 (10 ^ 19 * (3 / 10 ^ 19 + limit))))

/-- The per-iteration guard of the Monte-Carlo aggregator
(`main.py:264-272`): the batch `res` of `n_inside_tau` integrated
transmissions is appended to `taus_now` only when all of its entries are
below 10000; otherwise the whole batch is dropped. -/
def taus_now_accum (batches : List (List ℚ)) : List ℚ :=
  (batches.filter (fun res => res.all (fun x => decide (x < 10000)))).flatten

/-- The per-galaxy clean filter of `main.py:378-382`: a galaxy enters the
KDE stage only when every entry of its tau distribution is below 10000;
its flux and tau distributions are kept together. -/
def filter_clean (flux_tot taus_tot : List (List ℚ)) :
    List (List ℚ × List ℚ) :=
  (flux_tot.zip taus_tot).filter
    (fun p => p.2.all (fun x => decide (x < 10000)))

/-- `likelihood[:ind_data] += c`: add `c` to the first `k` entries of the
accumulator array (`main.py:405-419`, `main.py:459-469`). -/
def addPrefix : List ℚ → ℕ → ℚ → List ℚ
  | [], _, _ => []
  | l, 0, _ => l
  | v :: t, k + 1, c => (v + c) :: addPrefix t k c

/-- The KDE loop of `_get_likelihood` (`main.py:385-469`) in the
`like_on_flux=False` configuration: per clean galaxy, fit the tau KDE and
the flux KDE (either fit may raise), then add the tau and flux
contributions to the prefix `[:ind_data]` of the accumulators. -/
def like_loop (ctx : KdeCtx) (tau_data flux_int : List ℚ) (limit : ℚ)
    (like_on_tau_full : Bool) :
    List (List ℚ × List ℚ) → ℕ → List ℚ → List ℚ →
      Except PyErr (List ℚ × List ℚ)
  | [], _, lt, li => Except.ok (lt, li)
  | (fl, tl) :: gs, k, lt, li =>
    match ctx.fit tl (3 / 20) with
    | Except.error e => Except.error e
    | Except.ok _ =>
      match ctx.fit (kde_flux_data ctx fl) (3 / 20) with
      | Except.error e => Except.error e
      | Except.ok _ =>
        like_loop ctx tau_data flux_int limit like_on_tau_full gs (k + 1)
          (addPrefix lt k
            (tau_contrib ctx tl (tau_data.getD k 0) (flux_int.getD k 0) limit
              like_on_tau_full))
          (addPrefix li k (int_contrib ctx fl (flux_int.getD k 0) limit))

/-- The likelihood section of `_get_likelihood` (`main.py:374-501`) in the
`cache=False`, `like_on_flux=False` configuration, taking the per-galaxy
Monte-Carlo distributions as inputs.  The `try` of `main.py:374` wraps the
KDE loop; the handler of `main.py:479-487` adds `-np.inf` to the
accumulators (a dead store, since it then executes `raise TypeError`), so
a caught exception surfaces as `TypeError` and any other exception
propagates unchanged.  On success the scalar-entry branch of
`main.py:499-501` returns the index and the accumulators (with no
galaxies, `likelihood_tau[0]` at `main.py:492` raises `IndexError`). -/
def get_likelihood (ctx : KdeCtx) (ndex n_gal : ℕ)
    (flux_tot taus_tot : List (List ℚ)) (tau_data flux_int : List ℚ)
    (limit : ℚ) (like_on_tau_full : Bool) :
    Except PyErr (ℕ × List ℚ × List ℚ) :=
  match like_loop ctx tau_data flux_int limit like_on_tau_full
      (filter_clean flux_tot taus_tot) 0
      (List.replicate n_gal 0) (List.replicate n_gal 0) with
  | Except.error e =>
    Except.error (if e.caught then PyErr.typeError else e)
  | Except.ok (lt, li) =>
    if n_gal = 0 then Except.error PyErr.indexError
    else Except.ok (ndex, lt, li)

/-- The enumerated contributions of the clean galaxies to `likelihood_int`,
starting at filtered index `k`. -/
def int_contribs (ctx : KdeCtx) (flux_int : List ℚ) (limit : ℚ) :
    ℕ → List (List ℚ × List ℚ) → List ℚ
  | _, [] => []
  | k, g :: gs =>
    int_contrib ctx g.1 (flux_int.getD k 0) limit ::
      int_contribs ctx flux_int limit (k + 1) gs

/-- The enumerated contributions of the clean galaxies to `likelihood_tau`,
starting at filtered index `k`. -/
def tau_contribs (ctx : KdeCtx) (tau_data flux_int : List ℚ) (limit : ℚ)
    (like_on_tau_full : Bool) : ℕ → List (List ℚ × List ℚ) → List ℚ
  | _, [] => []
  | k, g :: gs =>
    tau_contrib ctx g.2 (tau_data.getD k 0) (flux_int.getD k 0) limit
        like_on_tau_full ::
      tau_contribs ctx tau_data flux_int limit like_on_tau_full (k + 1) gs

/-- Iterated prefix accumulation: galaxy at filtered index `k` adds its
contribution to the entries before `k`. -/
def applyContribs : List ℚ → ℕ → List ℚ → List ℚ
  | li, _, [] => li
  | li, k, c :: cs => applyContribs (addPrefix li k c) (k + 1) cs

/-- One parallel task result of `sample_bubbles_grid`: the originating grid
index and the per-galaxy likelihood payload returned by `_get_likelihood`. -/
def seqTasks {α : Type} (n : ℕ) (f : ℕ → α) : List (ℕ × α) :=
  (List.range n).map (fun i => (i, f i))

/-- The reassembly step `like_calc.sort(key=lambda x: x[0])` of
`main.py:741`: a stable sort of the completed tasks by their returned
index. -/
def reassemble {α : Type} (l : List (ℕ × α)) : List (ℕ × α) :=
  sortBy (fun p q => decide (p.1 ≤ q.1)) l

/-- True exactly on a non-raising result. -/
def isOkB {α : Type} : Except PyErr α → Bool
  | Except.ok _ => true
  | Except.error _ => false

/-- Boolean check that every optical-depth sample of every row is a
non-negative finite value or `+∞`. -/
def rowsNonnegB (rows : List (List TauVal)) : Bool :=
  rows.all (fun row => row.all (fun v =>
    match v with
    | TauVal.fin q => decide (0 ≤ q)
    | TauVal.inf => true))

/-- A concrete computable instantiation of the numerical collaborators of
`igm_prop.py`, used to evaluate the embedding at concrete inputs:
`ratSqrt` is exact on the perfect squares the examples use, the cosmology
inversion is a linear stand-in, and the special function and float power
are the identity. -/
def igmCtx0 : IgmCtx where
  sqrt := ratSqrt
  zAtShift := fun z0 d => z0 - d / 100
  Ifun := id
  pow15 := id
  pi := 3
  freqLya := 1

/-- A concrete computable KDE context whose fits always succeed:
`evaluate` returns the query point, `integrate_box` returns the width of
the integration interval, and the logarithms are the identity. -/
def kdeCtx0 : KdeCtx where
  fit := fun _ _ => Except.ok ()
  evaluate := fun _ _ x => x
  integrate_box := fun _ _ lo hi => hi - lo
  log := id
  log10 := id

/-- A concrete KDE context modelling scipy's behaviour on a degenerate
dataset: fitting a constant (zero-variance, singular-covariance) dataset
raises `LinAlgError`; everything else behaves as in `kdeCtx0`. -/
def kdeCtxFail : KdeCtx where
  fit := fun d _ =>
    if d.all (fun x => decide (x = d.headD 0)) then Except.error PyErr.linAlgError
    else Except.ok ()
  evaluate := fun _ _ x => x
  integrate_box := fun _ _ lo hi => hi - lo
  log := id
  log10 := id

/-- A concrete computable instantiation of the `get_bubbles`
collaborators. -/
def bubCtx0 : BubCtx where
  pi := 3
  sqrt := ratSqrt

/-! Helper lemmas about the stable sort used by the reassembly step and by
the interval ordering. -/

theorem insertBy_perm {α : Type} (le : α → α → Bool) (a : α) (l : List α) :
    (insertBy le a l).Perm (a :: l) := by
  induction l with
  | nil => exact List.Perm.refl _
  | cons b t ih =>
    show (if le a b then a :: b :: t else b :: insertBy le a t).Perm _
    by_cases h : le a b
    · rw [if_pos h]
    · rw [if_neg h]
      exact (ih.cons b).trans (List.Perm.swap a b t)

theorem sortBy_perm {α : Type} (le : α → α → Bool) (l : List α) :
    (sortBy le l).Perm l := by
  induction l with
  | nil => exact List.Perm.refl _
  | cons a t ih =>
    exact (insertBy_perm le a (sortBy le t)).trans (ih.cons a)

theorem insertBy_pairwise_keys {α : Type} (a : ℕ × α) (l : List (ℕ × α))
    (h : l.Pairwise (fun p q => p.1 ≤ q.1)) :
    (insertBy (fun p q => decide (p.1 ≤ q.1)) a l).Pairwise
      (fun p q => p.1 ≤ q.1) := by
  induction l with
  | nil => simp [insertBy]
  | cons b t ih =>
    rw [List.pairwise_cons] at h
    show (if (decide (a.1 ≤ b.1) : Bool) then a :: b :: t
        else b :: insertBy _ a t).Pairwise _
    by_cases hab : a.1 ≤ b.1
    · rw [if_pos (by simpa using hab)]
      refine List.pairwise_cons.mpr ⟨?_, List.pairwise_cons.mpr h⟩
      intro x hx
      rcases List.mem_cons.mp hx with hx | hx
      · subst hx
        exact hab
      · exact le_trans hab (h.1 x hx)
    · rw [if_neg (by simpa using hab)]
      refine List.pairwise_cons.mpr ⟨?_, ih h.2⟩
      intro x hx
      have hx' : x ∈ a :: t :=
        (insertBy_perm (fun p q => decide (p.1 ≤ q.1)) a t).mem_iff.mp hx
      rcases List.mem_cons.mp hx' with hx' | hx'
      · subst hx'
        exact le_of_not_le hab
      · exact h.1 x hx'

theorem sortBy_pairwise_keys {α : Type} (l : List (ℕ × α)) :
    (sortBy (fun p q => decide (p.1 ≤ q.1)) l).Pairwise
      (fun p q => p.1 ≤ q.1) := by
  induction l with
  | nil => simp [sortBy]
  | cons a t ih => exact insertBy_pairwise_keys a _ ih

theorem seqTasks_pairwise_keys {α : Type} (n : ℕ) (f : ℕ → α) :
    (seqTasks n f).Pairwise (fun p q => p.1 < q.1) := by
  exact List.Pairwise.map _ (fun a b hab => hab) (List.pairwise_lt_range n)

theorem eq_of_perm_sorted_strict {α : Type} :
    ∀ (l1 l2 : List (ℕ × α)), l1.Perm l2 →
      l1.Pairwise (fun p q => p.1 ≤ q.1) →
      l2.Pairwise (fun p q => p.1 < q.1) → l1 = l2 := by
  intro l1
  induction l1 with
  | nil =>
    intro l2 h _ _
    exact (h.nil_eq).symm ▸ rfl
  | cons a t1 ih =>
    intro l2 h h1 h2
    cases l2 with
    | nil => exact absurd h.eq_nil (by simp)
    | cons b t2 =>
      rw [List.pairwise_cons] at h1 h2
      have hab : a = b := by
        have ha : a ∈ b :: t2 := h.mem_iff.mp (List.mem_cons_self a t1)
        have hb : b ∈ a :: t1 := h.symm.mem_iff.mp (List.mem_cons_self b t2)
        rcases List.mem_cons.mp ha with ha | ha
        · exact ha
        · rcases List.mem_cons.mp hb with hb | hb
          · exact hb.symm
          · exact absurd (lt_of_lt_of_le (h2.1 a ha) (h1.1 b hb))
              (lt_irrefl _)
      subst hab
      have := ih t2 h.cons_inv h1.2 h2.2
      rw [this]

/-! Helper lemmas about the prefix-slice accumulation of
`_get_likelihood`. -/

theorem addPrefix_length (l : List ℚ) : ∀ (k : ℕ) (c : ℚ),
    (addPrefix l k c).length = l.length := by
  induction l with
  | nil => intro k c; cases k <;> rfl
  | cons v t ih =>
    intro k c
    cases k with
    | zero => rfl
    | succ k => simpa [addPrefix] using ih k c

theorem addPrefix_getD (l : List ℚ) : ∀ (k j : ℕ) (c : ℚ), j < l.length →
    (addPrefix l k c).getD j 0 = l.getD j 0 + if j < k then c else 0 := by
  induction l with
  | nil => intro k j c h; simp at h
  | cons v t ih =>
    intro k j c h
    cases k with
    | zero => simp [addPrefix]
    | succ k =>
      cases j with
      | zero => simp [addPrefix]
      | succ j =>
        have hj : j < t.length := by simpa using h
        simpa [addPrefix, Nat.succ_lt_succ_iff] using ih k j c hj

theorem applyContribs_length (cs : List ℚ) : ∀ (li : List ℚ) (k : ℕ),
    (applyContribs li k cs).length = li.length := by
  induction cs with
  | nil => intro li k; rfl
  | cons c cs ih =>
    intro li k
    simpa [applyContribs, addPrefix_length] using ih (addPrefix li k c) (k + 1)

theorem applyContribs_getD (cs : List ℚ) : ∀ (li : List ℚ) (k j : ℕ),
    j < li.length →
    (applyContribs li k cs).getD j 0 =
      li.getD j 0 + ((cs.drop (j + 1 - k)).sum) := by
  induction cs with
  | nil => intro li k j h; simp [applyContribs]
  | cons c cs ih =>
    intro li k j h
    have h' : j < (addPrefix li k c).length := by rwa [addPrefix_length]
    have := ih (addPrefix li k c) (k + 1) j h'
    rw [applyContribs, this, addPrefix_getD li k j c h]
    by_cases hjk : j < k
    · have h0 : j + 1 - k = 0 := by omega
      have h0' : j - k = 0 := by omega
      have h1 : j + 1 - (k + 1) = 0 := by omega
      rw [if_pos hjk, h0, h1]
      simp only [List.drop_zero, List.sum_cons]
      ring
    · have h1 : j + 1 - (k + 1) = j - k := by omega
      have h2 : j + 1 - k = (j - k) + 1 := by omega
      rw [if_neg hjk, h1, h2, List.drop_succ_cons]
      ring

theorem getD_replicate_zero (n : ℕ) : ∀ (j : ℕ),
    (List.replicate n (0 : ℚ)).getD j 0 = 0 := by
  induction n with
  | zero => intro j; cases j <;> rfl
  | succ n ih =>
    intro j
    cases j with
    | zero => rfl
    | succ j => simp [List.replicate, ih j]

theorem like_loop_ok_eq (ctx : KdeCtx) (tau_data flux_int : List ℚ)
    (limit : ℚ) (lotf : Bool) :
    ∀ (gs : List (List ℚ × List ℚ)) (k : ℕ) (lt li ltf lif : List ℚ),
      like_loop ctx tau_data flux_int limit lotf gs k lt li =
        Except.ok (ltf, lif) →
      ltf = applyContribs lt k (tau_contribs ctx tau_data flux_int limit lotf k gs) ∧
      lif = applyContribs li k (int_contribs ctx flux_int limit k gs) := by
  intro gs
  induction gs with
  | nil =>
    intro k lt li ltf lif h
    have h' : lt = ltf ∧ li = lif := by
      simpa [like_loop] using h
    simp [tau_contribs, int_contribs, applyContribs, h'.1, h'.2]
  | cons g gs ih =>
    intro k lt li ltf lif h
    obtain ⟨fl, tl⟩ := g
    rw [like_loop] at h
    cases h1 : ctx.fit tl (3 / 20) with
    | error e => rw [h1] at h; exact absurd h (by simp)
    | ok u =>
      rw [h1] at h
      cases h2 : ctx.fit (kde_flux_data ctx fl) (3 / 20) with
      | error e => rw [h2] at h; exact absurd h (by simp)
      | ok u' =>
        rw [h2] at h
        have := ih (k + 1) _ _ ltf lif h
        exact ⟨by rw [tau_contribs, applyContribs, this.1],
          by rw [int_contribs, applyContribs, this.2]⟩

/-! Helper lemmas about the interval-merging arrays of `calculate_taus_i`. -/

theorem deleteIdxs_ne_nil {α : Type} :
    ∀ (l : List α) (idxs : List ℕ) (k : ℕ),
      (∃ j, k ≤ j ∧ j < k + l.length ∧ idxs.contains j = false) →
      deleteIdxs l idxs k ≠ [] := by
  intro l
  induction l with
  | nil =>
    intro idxs k h
    obtain ⟨j, h1, h2, _⟩ := h
    simp only [List.length_nil] at h2
    omega
  | cons x t ih =>
    intro idxs k h
    obtain ⟨j, h1, h2, h3⟩ := h
    show (if idxs.contains k then deleteIdxs t idxs (k + 1)
        else x :: deleteIdxs t idxs (k + 1)) ≠ []
    by_cases hc : idxs.contains k
    · rw [if_pos hc]
      refine ih idxs (k + 1) ⟨j, ?_, ?_, h3⟩
      · rcases Nat.lt_or_ge k j with hlt | hge
        · omega
        · have : j = k := by omega
          rw [this] at h3
          rw [hc] at h3
          exact absurd h3 (by simp)
      · simp only [List.length_cons] at h2
        omega
    · rw [if_neg hc]
      simp

theorem sortIntervals_ne_nil (l : List Interval) (h : l ≠ []) :
    sortIntervals l ≠ [] := by
  intro hcon
  apply h
  have hperm := sortBy_perm (fun a b => decide (a.zUp ≤ b.zUp)) l
  have : sortBy (fun a b => decide (a.zUp ≤ b.zUp)) l = [] := by
    have := congrArg List.reverse hcon
    simpa [sortIntervals] using this
  rw [this] at hperm
  exact hperm.symm.eq_nil

theorem marks_lt (sorted : List Interval) :
    ∀ m ∈ (List.range (sorted.length - 1)).filter
      (fun i => decide ((sorted.getD i default).zLo <
        (sorted.getD (i + 1) default).zUp)), m < sorted.length - 1 := by
  intro m hm
  exact List.mem_range.mp (List.mem_filter.mp hm).1

theorem contains_eq_false_of_not_mem (idxs : List ℕ) (j : ℕ) (h : j ∉ idxs) :
    idxs.contains j = false := by
  simpa using h

theorem mergeIntervals_ne_nil (sorted : List Interval) (h : sorted ≠ []) :
    mergeIntervals sorted ≠ [] := by
  have hL : 1 ≤ sorted.length := by
    cases sorted with
    | nil => exact absurd rfl h
    | cons a t => simp
  rw [mergeIntervals]
  set marks := (List.range (sorted.length - 1)).filter
    (fun i => decide ((sorted.getD i default).zLo <
      (sorted.getD (i + 1) default).zUp)) with hmarks
  have hup : ∀ (l : List ℚ), l.length = sorted.length →
      deleteIdxs l (marks.map (· + 1)) 0 ≠ [] := by
    intro l hl
    refine deleteIdxs_ne_nil l _ 0 ⟨0, le_refl 0, by omega, ?_⟩
    refine contains_eq_false_of_not_mem _ 0 ?_
    intro hmem
    obtain ⟨m, _, hm0⟩ := List.mem_map.mp hmem
    omega
  have hlo : ∀ (l : List ℚ), l.length = sorted.length →
      deleteIdxs l marks 0 ≠ [] := by
    intro l hl
    refine deleteIdxs_ne_nil l _ 0 ⟨sorted.length - 1, by omega, by omega, ?_⟩
    refine contains_eq_false_of_not_mem _ _ ?_
    intro hmem
    have := marks_lt sorted _ (hmarks ▸ hmem)
    omega
  cases hz1 : deleteIdxs (sorted.map (·.zUp)) (marks.map (· + 1)) 0 with
  | nil => exact absurd hz1 (hup _ (List.length_map _ _))
  | cons u us =>
  cases hz2 : deleteIdxs (sorted.map (·.zLo)) marks 0 with
  | nil => exact absurd hz2 (hlo _ (List.length_map _ _))
  | cons v vs =>
  cases hz3 : deleteIdxs (sorted.map (·.redUp)) (marks.map (· + 1)) 0 with
  | nil => exact absurd hz3 (hup _ (List.length_map _ _))
  | cons p ps =>
  cases hz4 : deleteIdxs (sorted.map (·.redLo)) marks 0 with
  | nil => exact absurd hz4 (hlo _ (List.length_map _ _))
  | cons q qs =>
  simp [List.zip]

/-! Helper lemma for the rejection counter of `get_bubbles`. -/

theorem get_bubbles_loop_rejecting (ctx : BubCtx) (xh z_v rmax tol : ℚ) :
    ∀ (draws : List Draw) (s : BState), s.tryI ≤ 4 →
      (∀ d ∈ draws.take (5 - s.tryI),
        rejectsDraw ctx rmax z_v s.bubs d = true) →
      get_bubbles_loop ctx xh z_v rmax tol false draws s = s.bubs := by
  intro draws
  induction draws with
  | nil => intro s _ _; rfl
  | cons d ds ih =>
    intro s htry hrej
    rw [get_bubbles_loop]
    by_cases hcond : |s.vTot - (1 - xh) * z_v * rmax * rmax| /
        ((1 - xh) * z_v * rmax * rmax) > tol
    · rw [if_pos hcond]
      have hd : rejectsDraw ctx rmax z_v s.bubs d = true := by
        refine hrej d ?_
        have h5 : 5 - s.tryI = (4 - s.tryI) + 1 := by omega
        rw [h5, List.take_succ_cons]
        exact List.mem_cons_self d _
      have hstep : get_bubbles_step ctx xh z_v rmax tol false s d =
          (if s.tryI + 1 ≥ 5 then StepRes.done s.bubs
           else StepRes.cont { s with tryI := s.tryI + 1 }) := by
        rw [get_bubbles_step]
        rw [if_neg (by simp)]
        rw [rejectsDraw] at hd
        simp only []
        rw [if_pos hd]
      rw [hstep]
      by_cases h5 : s.tryI + 1 ≥ 5
      · rw [if_pos h5]
      · rw [if_neg h5]
        refine ih { s with tryI := s.tryI + 1 } (by show s.tryI + 1 ≤ 4; omega) ?_
        intro d' hd'
        refine hrej d' ?_
        have h5' : 5 - s.tryI = (5 - (s.tryI + 1)) + 1 := by omega
        rw [h5', List.take_succ_cons]
        exact List.mem_cons_of_mem d hd'
    · rw [if_neg hcond]


/-! Claim theorems. -/

/-- C4: for every permutation of the completion order of the per-grid-point
parallel tasks, sorting the task results by their returned index
(`like_calc.sort(key=lambda x: x[0])`, `main.py:741`) reconstructs exactly
the list of results in sequential grid-index order, so the reshaped
likelihood grid is identical to the one produced by sequential evaluation
with each grid point's result held fixed. -/
theorem grid_reassembly_eq_sequential {α : Type} (n : ℕ) (f : ℕ → α)
    (l : List (ℕ × α)) (h : l.Perm (seqTasks n f)) :
    reassemble l = seqTasks n f ∧
      (reassemble l).map Prod.snd = (List.range n).map f := by
  have h1 : reassemble l = seqTasks n f := by
    refine eq_of_perm_sorted_strict _ _ ((sortBy_perm _ l).trans h) ?_ ?_
    · exact sortBy_pairwise_keys l
    · exact seqTasks_pairwise_keys n f
  refine ⟨h1, ?_⟩
  rw [h1, seqTasks, List.map_map]
  rfl

/-- Witness for C4 at a concrete permuted completion order of three grid
points. -/
theorem grid_reassembly_eq_sequential_witness :
    ([(2, [(2 : ℚ)]), (0, [0]), (1, [1])]).Perm
        (seqTasks 3 (fun i => [(i : ℚ)])) ∧
      reassemble [(2, [(2 : ℚ)]), (0, [0]), (1, [1])] =
        seqTasks 3 (fun i => [(i : ℚ)]) :=
  ⟨by decide,
    (grid_reassembly_eq_sequential 3 (fun i => [(i : ℚ)])
      [(2, [(2 : ℚ)]), (0, [0]), (1, [1])] (by decide)).1⟩

/-- C7 counterexample: the batch `[1, 20000]` contains the draw `1`, which
is well below 10000, yet `taus_now_accum` discards it together with the
offending draw 20000 — exclusion is not at the granularity of the single
offending draw. -/
theorem taus_now_single_draw_cex :
    taus_now_accum [[1, 20000]] = [] ∧ (1 : ℚ) < 10000 ∧
      (1 : ℚ) ∈ [(1 : ℚ), 20000] := by
  decide

/-- C7 (amended): the over-10000 guard of `main.py:264-272` excludes draws
at the granularity of a whole iteration's batch: a draw is retained in the
clean distribution exactly when every draw of its batch is below 10000. -/
theorem taus_now_accum_batch_granularity (batches : List (List ℚ)) (x : ℚ) :
    x ∈ taus_now_accum batches ↔
      ∃ b ∈ batches, x ∈ b ∧ ∀ y ∈ b, y < 10000 := by
  simp only [taus_now_accum, List.mem_flatten, List.mem_filter,
    List.all_eq_true, decide_eq_true_eq]
  tauto

/-- Witness for C7's amended rule at a concrete clean batch. -/
theorem taus_now_accum_batch_granularity_witness :
    (5 : ℚ) ∈ taus_now_accum [[5]] :=
  (taus_now_accum_batch_granularity [[5]] 5).mpr
    ⟨[5], by decide, by decide, by decide⟩

/-- C9: the `get_bubbles` placement loop gives up and returns the ensemble
accepted so far once 5 placements in a row are rejected (fully nested
overlap or negative residual volume, `igm_prop.py:240-246`), and the
rejection counter resets to zero on every accepted placement
(`igm_prop.py:255-260`). -/
theorem get_bubbles_five_rejections (ctx : BubCtx) (xh z_v rmax tol : ℚ) :
    (∀ (s : BState) (draws : List Draw), s.tryI = 0 →
      (∀ d ∈ draws.take 5, rejectsDraw ctx rmax z_v s.bubs d = true) →
      get_bubbles_loop ctx xh z_v rmax tol false draws s = s.bubs) ∧
    (∀ (s : BState) (d : Draw) (s' : BState),
      get_bubbles_step ctx xh z_v rmax tol false s d = StepRes.cont s' →
      s'.bubs.length = s.bubs.length + 1 → s'.tryI = 0) := by
  constructor
  · intro s draws h0 hrej
    refine get_bubbles_loop_rejecting ctx xh z_v rmax tol draws s (by omega) ?_
    rw [h0]
    simpa using hrej
  · intro s d s' hstep hlen
    rw [get_bubbles_step] at hstep
    rw [if_neg (by simp)] at hstep
    simp only [] at hstep
    split at hstep
    · split at hstep
      · exact absurd hstep (by simp)
      · injection hstep with h
        rw [← h] at hlen
        simp only [] at hlen
        omega
    · split at hstep
      · split at hstep
        · exact absurd hstep (by simp)
        · injection hstep with h
          rw [← h] at hlen
          omega
      · injection hstep with h
        rw [← h]

/-- Witness for C9: five consecutive rejected placements (negative residual
volume from a box-edge cap) return the empty ensemble, and a concrete
accepted placement leaves the counter at zero. -/
theorem get_bubbles_five_rejections_witness :
    get_bubbles_loop bubCtx0 (1 / 2) 10 10 (1 / 100) false
        [⟨1, -21 / 2, 0, 5⟩, ⟨1, -21 / 2, 0, 5⟩, ⟨1, -21 / 2, 0, 5⟩,
          ⟨1, -21 / 2, 0, 5⟩, ⟨1, -21 / 2, 0, 5⟩] ⟨[], 0, 0⟩ = [] ∧
      (⟨[(0, 0, 5, 3)], 108, 0⟩ : BState).tryI = 0 :=
  ⟨(get_bubbles_five_rejections bubCtx0 (1 / 2) 10 10 (1 / 100)).1
      ⟨[], 0, 0⟩ _ rfl (by decide),
    (get_bubbles_five_rejections bubCtx0 (1 / 2) 10 10 (1 / 100)).2
      ⟨[], 0, 0⟩ ⟨3, 0, 0, 5⟩ ⟨[(0, 0, 5, 3)], 108, 0⟩ (by decide) (by decide)⟩

/-- C10: with both `x_pos` and `y_pos` given, `calculate_taus_i` computes
exactly the one sightline at `(x_pos, y_pos)` — whatever `n_iter` and the
random streams are, the result is the single-row array obtained from that
sightline (clamped), so random offsets play no role. -/
theorem calculate_taus_i_single_sightline (ctx : IgmCtx) (bubbles : List Bub)
    (zs zeb : ℚ) (n_iter : ℕ) (a b dist : ℚ) (randX randY : List ℚ) :
    calculate_taus_i ctx bubbles zs zeb n_iter (some a) (some b) dist randX randY
      = (tau_sightline ctx bubbles zs zeb dist a b).map
          (fun row => [row.map clampNeg]) := by
  rw [calculate_taus_i]
  cases h : tau_sightline ctx bubbles zs zeb dist a b with
  | error e => simp [sightlinesOf, collectRows, h, Except.map]
  | ok row => simp [sightlinesOf, collectRows, h, Except.map]

/-- C8: every element of an array returned by `calculate_taus_i` is a
non-negative finite optical depth or `+∞` — the clamp of
`igm_prop.py:666-667` replaces every negative value with `np.inf` before
returning, and no negative value survives. -/
theorem calculate_taus_i_nonneg_or_inf (ctx : IgmCtx) (bubbles : List Bub)
    (zs zeb : ℚ) (n_iter : ℕ) (xp yp : Option ℚ) (dist : ℚ)
    (randX randY : List ℚ) (rows : List (List TauVal))
    (h : calculate_taus_i ctx bubbles zs zeb n_iter xp yp dist randX randY
      = Except.ok rows) :
    ∀ row ∈ rows, ∀ v ∈ row,
      (∃ q, v = TauVal.fin q ∧ 0 ≤ q) ∨ v = TauVal.inf := by
  rw [calculate_taus_i] at h
  cases hc : collectRows ctx bubbles zs zeb dist
      (sightlinesOf n_iter xp yp randX randY) with
  | error e => rw [hc] at h; exact absurd h (by simp)
  | ok rows0 =>
    rw [hc] at h
    have hr : rows = rows0.map (fun row => row.map clampNeg) := by
      have := h
      simp only [Except.ok.injEq] at this
      exact this.symm
    intro row hrow v hv
    rw [hr] at hrow
    obtain ⟨r0, _, hr0⟩ := List.mem_map.mp hrow
    rw [← hr0] at hv
    obtain ⟨q, _, hq⟩ := List.mem_map.mp hv
    rw [← hq, clampNeg]
    by_cases hneg : q < 0
    · rw [if_pos hneg]
      right
      rfl
    · rw [if_neg hneg]
      left
      exact ⟨q, rfl, not_lt.mp hneg⟩

/-- Witness for C8 at a concrete bubble-free configuration. -/
theorem calculate_taus_i_nonneg_or_inf_witness :
    rowsNonnegB ((calculate_taus_i igmCtx0 [] (15 / 2) (15 / 2) 1 (some 0)
      (some 0) 0 [] []).toOption.getD []) = true := by
  have h := calculate_taus_i_nonneg_or_inf igmCtx0 [] (15 / 2) (15 / 2) 1
    (some 0) (some 0) 0 [] [] _ rfl
  rw [rowsNonnegB, List.all_eq_true]
  intro row hrow
  rw [List.all_eq_true]
  intro v hv
  rcases h row hrow v hv with ⟨q, hq, hq0⟩ | hinf
  · rw [hq]
    simpa using hq0
  · rw [hinf]

/-- C5 (amended): a sightline that intersects no bubble of the ensemble
falls back to the closed-form `tau_wv` curve over `[5.3, z_source]`, but
evaluated at the hard-coded neutral fraction `nf = 0.8`
(`igm_prop.py:581`), with negative values clamped — not at the neutral
fraction used to generate the ensemble. -/
theorem calculate_taus_i_no_intersection (ctx : IgmCtx) (bubbles : List Bub)
    (zs zeb : ℚ) (n_iter : ℕ) (a b dist : ℚ) (randX randY : List ℚ)
    (h : intersections ctx bubbles a b = []) :
    calculate_taus_i ctx bubbles zs zeb n_iter (some a) (some b) dist randX randY
      = Except.ok [(tau_wv ctx wave_em dist zs (53 / 10) (8 / 10)).map clampNeg] := by
  have hs : tau_sightline ctx bubbles zs zeb dist a b
      = Except.ok (tau_wv ctx wave_em dist zs (53 / 10) (8 / 10)) := by
    rw [tau_sightline, h]
    rfl
  rw [calculate_taus_i]
  simp [sightlinesOf, collectRows, hs]

/-- Witness for C5's amended fallback rule with an empty ensemble. -/
theorem calculate_taus_i_no_intersection_witness :
    calculate_taus_i igmCtx0 [] (15 / 2) (15 / 2) 1 (some 0) (some 0) 0 [] []
      = Except.ok [(tau_wv igmCtx0 wave_em 0 (15 / 2) (53 / 10) (8 / 10)).map
          clampNeg] :=
  calculate_taus_i_no_intersection igmCtx0 [] (15 / 2) (15 / 2) 1 0 0 0 [] [] rfl

/-- C5 counterexample: for a no-intersection sightline the returned curve
differs from `tau_wv` evaluated at `xH_fiducial = 0.65`, the neutral
fraction that `_get_likelihood` (`main.py:212`) uses to generate the
bubble ensembles — the fallback is pinned to `nf = 0.8` instead. -/
theorem calculate_taus_i_fallback_nf_cex :
    calculate_taus_i igmCtx0 [] (15 / 2) (15 / 2) 1 (some 0) (some 0) 0 [] []
      ≠ Except.ok [(tau_wv igmCtx0 wave_em 0 (15 / 2) (53 / 10) xH_fiducial).map
          clampNeg] := by
  decide

/-- C6 (amended): the wholly-behind-the-galaxy check of
`igm_prop.py:608-611` is performed only at index 0 of the
sorted-and-merged interval list: when the first interval (the one with the
largest entry coordinate after the descending sort) has both line-of-sight
coordinates negative, `calculate_taus_i` raises `ValueError`. -/
theorem calculate_taus_i_behind_first_raises (ctx : IgmCtx)
    (bubbles : List Bub) (zs zeb : ℚ) (n_iter : ℕ) (a b dist : ℚ)
    (randX randY : List ℚ)
    (hne : intersections ctx bubbles a b ≠ [])
    (hup : ((mergeIntervals (sortIntervals
      (intersections ctx bubbles a b))).headD default).zUp < 0)
    (hlo : ((mergeIntervals (sortIntervals
      (intersections ctx bubbles a b))).headD default).zLo < 0) :
    calculate_taus_i ctx bubbles zs zeb n_iter (some a) (some b) dist randX randY
      = Except.error PyErr.valueError := by
  have hmerged : mergeIntervals (sortIntervals (intersections ctx bubbles a b))
      ≠ [] :=
    mergeIntervals_ne_nil _ (sortIntervals_ne_nil _ hne)
  have hs : tau_sightline ctx bubbles zs zeb dist a b
      = Except.error PyErr.valueError := by
    rw [tau_sightline]
    rw [if_neg (by simpa [List.isEmpty_iff] using hne)]
    cases hm : mergeIntervals (sortIntervals (intersections ctx bubbles a b)) with
    | nil => exact absurd hm hmerged
    | cons hI t =>
      rw [hm] at hup hlo
      simp only [List.headD_cons] at hup hlo
      rw [tau_intervals]
      rw [if_pos ⟨hup, hlo⟩]
  rw [calculate_taus_i]
  simp [sightlinesOf, collectRows, hs]

/-- Witness for C6's amended rule: one bubble wholly behind the galaxy is
the first (and only) interval, and `calculate_taus_i` raises. -/
theorem calculate_taus_i_behind_first_raises_witness :
    intersections igmCtx0 [(0, 0, -10, 5)] 0 0 ≠ [] ∧
      calculate_taus_i igmCtx0 [(0, 0, -10, 5)] (15 / 2) (15 / 2) 1 (some 0)
        (some 0) 0 [] [] = Except.error PyErr.valueError :=
  ⟨by decide,
    calculate_taus_i_behind_first_raises igmCtx0 [(0, 0, -10, 5)] (15 / 2)
      (15 / 2) 1 0 0 0 [] [] (by decide) (by decide) (by decide)⟩

/-- C6 counterexample: a sightline whose intersection list contains an
interval wholly behind the galaxy (both coordinates negative, from the
bubble at z = -10) together with a nearer interval does NOT raise —
`calculate_taus_i` returns a result, silently absorbing the invalid
interval, because the check only applies to the first sorted interval. -/
theorem behind_interval_not_first_absorbed_cex :
    ((intersections igmCtx0 [(0, 0, 10, 5), (0, 0, -10, 5)] 0 0).any
        (fun iv => decide (iv.zUp < 0) && decide (iv.zLo < 0)) = true) ∧
      isOkB (calculate_taus_i igmCtx0 [(0, 0, 10, 5), (0, 0, -10, 5)]
        (15 / 2) (15 / 2) 1 (some 0) (some 0) 0 [] []) = true := by
  constructor
  · decide
  · decide

/-- C1 (amended): when a KDE fit raises one of the caught exception classes
(`LinAlgError`/`ValueError`/`TypeError` — e.g. a degenerate
singular-covariance fit), the handler of `main.py:479-487` adds `-np.inf`
to the likelihood accumulators but then executes `raise TypeError`, so
`_get_likelihood` propagates a `TypeError` to the caller and produces no
result for the grid point. -/
theorem get_likelihood_kde_failure_reraises (ctx : KdeCtx) (ndex n_gal : ℕ)
    (flux_tot taus_tot : List (List ℚ)) (tau_data flux_int : List ℚ)
    (limit : ℚ) (lotf : Bool) (e : PyErr)
    (herr : like_loop ctx tau_data flux_int limit lotf
        (filter_clean flux_tot taus_tot) 0 (List.replicate n_gal 0)
        (List.replicate n_gal 0) = Except.error e)
    (hc : e.caught = true) :
    get_likelihood ctx ndex n_gal flux_tot taus_tot tau_data flux_int limit lotf
      = Except.error PyErr.typeError := by
  rw [get_likelihood, herr]
  simp [hc]

/-- Witness for C1's amended rule: a constant (zero-variance) tau
distribution makes the KDE fit raise `LinAlgError`, and `_get_likelihood`
surfaces it as `TypeError`. -/
theorem get_likelihood_kde_failure_reraises_witness :
    like_loop kdeCtxFail [0] [5] 1 false (filter_clean [[1, 1]] [[2, 2]]) 0
        (List.replicate 1 0) (List.replicate 1 0)
      = Except.error PyErr.linAlgError ∧
      get_likelihood kdeCtxFail 0 1 [[1, 1]] [[2, 2]] [0] [5] 1 false
        = Except.error PyErr.typeError :=
  ⟨by decide,
    get_likelihood_kde_failure_reraises kdeCtxFail 0 1 [[1, 1]] [[2, 2]] [0]
      [5] 1 false PyErr.linAlgError (by decide) (by decide)⟩

/-- C1 counterexample: at a concrete grid point whose only galaxy has a
degenerate (constant) tau distribution, `_get_likelihood` does not return
a result at all — it raises `TypeError`, contradicting the claim that the
evaluation recovers and returns with that contribution at `-∞`. -/
theorem get_likelihood_kde_failure_no_result_cex :
    get_likelihood kdeCtxFail 0 1 [[1, 1]] [[2, 2]] [0] [5] 1 false
      = Except.error PyErr.typeError := by
  decide

/-- C2 (amended): for a galaxy whose integrated flux is below `flux_limit`,
the flux-likelihood contribution is
`log(flux_kde.integrate_box(0.05, log10(1e19*(3e-19+flux_limit))))` — a
KDE mass in the log-transformed flux coordinate with fixed lower bound
0.05, not the mass over `[0, limit]` — it does not depend on the observed
value (the KDE is never point-evaluated at it), and the
transmission-likelihood accumulator receives no contribution at all
(`pass`, `main.py:414-416`). -/
theorem int_contrib_below_limit_rule (ctx : KdeCtx) (fl tl : List ℚ)
    (fi fi' limit td : ℚ) (h : fi < limit) (h' : fi' < limit) :
    int_contrib ctx fl fi limit
        = ctx.log (ctx.integrate_box (kde_flux_data ctx fl) (3 / 20) (1 / 20)
            (ctx.log10 (10 ^ 19 * (3 / 10 ^ 19 + limit))))
      ∧ int_contrib ctx fl fi limit = int_contrib ctx fl fi' limit
      ∧ tau_contrib ctx tl td fi limit false = 0 := by
  refine ⟨?_, ?_, ?_⟩
  · rw [int_contrib, if_pos h]
  · rw [int_contrib, if_pos h, int_contrib, if_pos h']
  · simp [tau_contrib, h]

/-- Witness for C2's amended rule at a concrete below-limit galaxy. -/
theorem int_contrib_below_limit_rule_witness :
    int_contrib kdeCtx0 [0] 0 1
        = kdeCtx0.log (kdeCtx0.integrate_box (kde_flux_data kdeCtx0 [0]) (3 / 20)
            (1 / 20) (kdeCtx0.log10 (10 ^ 19 * (3 / 10 ^ 19 + 1))))
      ∧ int_contrib kdeCtx0 [0] 0 1 = int_contrib kdeCtx0 [0] (1 / 2) 1
      ∧ tau_contrib kdeCtx0 [0] 7 0 1 false = 0 :=
  int_contrib_below_limit_rule kdeCtx0 [0] [0] 0 (1 / 2) 1 7 (by decide)
    (by decide)

/-- C2 counterexample: at a concrete below-limit galaxy the accumulated
contribution differs from the claim's `log(∫ KDE over [0, limit])`
(`int_contrib_claimed`): the code's lower integration bound is the fixed
transformed value 0.05, not the transform of flux 0. -/
theorem int_contrib_bounds_cex :
    (0 : ℚ) < 1 ∧
      int_contrib kdeCtx0 [0] 0 1 ≠ int_contrib_claimed kdeCtx0 [0] 1 := by
  constructor
  · decide
  · decide

/-- C3 (amended): entry `j` of the per-galaxy likelihood arrays returned by
`_get_likelihood` accumulates exactly the contributions of the clean
galaxies with filtered index strictly greater than `j` — the slice
`likelihood[:ind_data]` of `main.py:405-469` excludes galaxy `ind_data`
itself, so no entry equals the sum of all galaxies' contributions. -/
theorem get_likelihood_prefix_accumulation (ctx : KdeCtx) (ndex n_gal : ℕ)
    (flux_tot taus_tot : List (List ℚ)) (tau_data flux_int : List ℚ)
    (limit : ℚ) (lotf : Bool) (nd : ℕ) (lt li : List ℚ)
    (hok : get_likelihood ctx ndex n_gal flux_tot taus_tot tau_data flux_int
      limit lotf = Except.ok (nd, lt, li))
    (j : ℕ) (hj : j < n_gal) :
    li.getD j 0 = ((int_contribs ctx flux_int limit 0
        (filter_clean flux_tot taus_tot)).drop (j + 1)).sum
      ∧ lt.getD j 0 = ((tau_contribs ctx tau_data flux_int limit lotf 0
        (filter_clean flux_tot taus_tot)).drop (j + 1)).sum := by
  rw [get_likelihood] at hok
  cases hloop : like_loop ctx tau_data flux_int limit lotf
      (filter_clean flux_tot taus_tot) 0 (List.replicate n_gal 0)
      (List.replicate n_gal 0) with
  | error e =>
    rw [hloop] at hok
    exact absurd hok (by simp)
  | ok p =>
    obtain ⟨lt0, li0⟩ := p
    rw [hloop] at hok
    have hok' : (if n_gal = 0 then (Except.error PyErr.indexError :
          Except PyErr (ℕ × List ℚ × List ℚ))
        else Except.ok (ndex, lt0, li0)) = Except.ok (nd, lt, li) := hok
    rw [if_neg (by omega)] at hok'
    simp only [Except.ok.injEq, Prod.mk.injEq] at hok'
    obtain ⟨-, hlt, hli⟩ := hok'
    have hc := like_loop_ok_eq ctx tau_data flux_int limit lotf
      (filter_clean flux_tot taus_tot) 0 (List.replicate n_gal 0)
      (List.replicate n_gal 0) lt0 li0 hloop
    have hlen : j < (List.replicate n_gal (0 : ℚ)).length := by
      simpa using hj
    constructor
    · rw [← hli, hc.2, applyContribs_getD _ _ 0 j hlen, getD_replicate_zero]
      simp
    · rw [← hlt, hc.1, applyContribs_getD _ _ 0 j hlen, getD_replicate_zero]
      simp

/-- Witness for C3's amended accumulation rule on a concrete two-galaxy
dataset: the first entry holds exactly the second galaxy's contribution. -/
theorem get_likelihood_prefix_accumulation_witness :
    ([(60000000000000000003 : ℚ), 0]).getD 0 0
        = ((int_contribs kdeCtx0 [5, 6] 1 0
          (filter_clean [[1], [2]] [[0], [0]])).drop 1).sum
      ∧ ([(8 : ℚ), 0]).getD 0 0
        = ((tau_contribs kdeCtx0 [7, 8] [5, 6] 1 false 0
          (filter_clean [[1], [2]] [[0], [0]])).drop 1).sum :=
  get_likelihood_prefix_accumulation kdeCtx0 0 2 [[1], [2]] [[0], [0]] [7, 8]
    [5, 6] 1 false 0 [8, 0] [60000000000000000003, 0] (by decide) 0 (by decide)

/-- C3 counterexample: with a single galaxy whose contribution is nonzero,
the returned likelihood arrays are all zero — the galaxy's own entry never
receives its contribution, so the result is not the sum over all galaxies
of their contributions. -/
theorem get_likelihood_excludes_own_galaxy_cex :
    get_likelihood kdeCtx0 0 1 [[1]] [[0]] [7] [5] 1 false
        = Except.ok (0, [0], [0])
      ∧ int_contrib kdeCtx0 [1] 5 1 ≠ 0
      ∧ tau_contrib kdeCtx0 [0] 7 5 1 false ≠ 0 := by
  refine ⟨by decide, by decide, by decide⟩
